import Mathlib

/-!
Verification of the PDF figure-extraction core (`pdf_image_extraction`).

This file shallowly embeds the parts of `core/extractor.py`,
`core/image_embedded.py` and `core/constants.py` that the checked claims
are about, and proves (or refutes) the claims over that embedding.

Modelling conventions, used throughout:

* `float64` coordinates are modelled as `ℚ` (exact real arithmetic).
* Euclidean distances are compared through their squares: for `d > 0`,
  `dist p q < d ↔ distSq p q < d * d`, and `dist p q = 0 ↔ distSq p q = 0`,
  so no square roots are needed.
* The PDF library (PyMuPDF / `fitz`) is an external collaborator, out of
  scope of the repository; its small capability surface (points,
  rectangles, pixmaps) is modelled from the spec's data-model section:
  `Point.distance_to`, `Rect` containment, `Rect.include_rect`, pixmap
  colorspace resolution (an environment function `ℕ → Option String`).
* Python `None` is `Option.none`; Python truthiness of an optional int
  (`if obj.xref:`) treats both `None` and `0` as false.
* File writes are modelled as lists of written images; filename string
  formatting is elided except where a claim depends on it (the
  post-processor's filename counters, which are modelled exactly).
* Pixel payloads of images are elided (`data` fields carry an abstract
  sample list); the claims below concern dimensions, modes and control
  flow, never individual pixel values.
-/

/-! ## Constants (`core/constants.py`) -/

def MIN_IMAGE_WIDTH : ℕ := 10

def MIN_IMAGE_HEIGHT : ℕ := 10

def OVERLAP_DISTANCE : ℚ := 1

def OVERLAP_DISTANCE_BBOX : ℚ := 1 / 1000

def EXTRACTION_TIMEOUT : ℕ := 600

/-- Extraction mode names, the keys of `EXTRACTION_MODES` in insertion
order (`safe`, `normal`, `unsafe`). -/
def operations_mode : List String := ["safe", "normal", "unsafe"]

/-! ## Geometry (`fitz.Point`, `fitz.Rect`, `get_rectangles_points`) -/

/-- Modelled from the spec (§3): an axis-aligned rectangle in PDF user
space, `float64` coordinates as `ℚ`. -/
structure Rect where
  x0 : ℚ
  y0 : ℚ
  x1 : ℚ
  y1 : ℚ
deriving DecidableEq, Repr

structure Point where
  x : ℚ
  y : ℚ
deriving DecidableEq, Repr

/-- Source `get_rectangles_points`: the four corners
`(x0,y0), (x1,y0), (x0,y1), (x1,y1)` of a rectangle. -/
def get_rectangles_points (bbox : Rect) : Point × Point × Point × Point :=
  (⟨bbox.x0, bbox.y0⟩, ⟨bbox.x1, bbox.y0⟩, ⟨bbox.x0, bbox.y1⟩, ⟨bbox.x1, bbox.y1⟩)

/-- Squared Euclidean distance between two points
(`fitz.Point.distance_to` on a point argument, squared). -/
def distSq (p q : Point) : ℚ :=
  (p.x - q.x) ^ 2 + (p.y - q.y) ^ 2

/-- Per-axis gap of a value to an interval, used for point-to-rectangle
distance: `0` inside the interval. -/
def axisGap (lo hi v : ℚ) : ℚ :=
  max (lo - v) (max 0 (v - hi))

/-- Modelled from the spec (§3 `distance_to(point|rect)`): squared
Euclidean distance from a point to a rectangle, `0` on or inside it. -/
def distSqPR (p : Point) (b : Rect) : ℚ :=
  axisGap b.x0 b.x1 p.x ^ 2 + axisGap b.y0 b.y1 p.y ^ 2

/-- Comparison `dist < d` expressed on the squared distance. For `d ≤ 0`
both sides are false, matching the Python comparison on the
(nonnegative) true distance. -/
def distLt (sq d : ℚ) : Bool :=
  decide (0 < d ∧ sq < d * d)

/-- Distance equal to zero, i.e. coincident points. -/
def distZero (p q : Point) : Bool :=
  decide (distSq p q = 0)

/-- Modelled from the spec (§3 `contains(other)`): `rectContains outer
inner` is the Python `inner in outer` on `fitz.Rect`, the chain
inequality `outer.x0 ≤ inner.x0 ≤ inner.x1 ≤ outer.x1` and likewise
for `y`. -/
def rectContains (outer inner : Rect) : Bool :=
  decide (outer.x0 ≤ inner.x0 ∧ inner.x0 ≤ inner.x1 ∧ inner.x1 ≤ outer.x1 ∧
    outer.y0 ≤ inner.y0 ∧ inner.y0 ≤ inner.y1 ∧ inner.y1 ≤ outer.y1)

/-- Source `check_overlap(bboxi, bboxj, distance, distance_bbox)`:
whether two rectangles are treated as parts of the same figure.
Mirrors the source's rule order: same-location first (false), then
containment (true), then the four edge-proximity patterns, then the
four bbox-distance patterns. -/
def check_overlap (bboxi bboxj : Rect) (distance distance_bbox : ℚ) : Bool :=
  let p0 : Point := ⟨bboxi.x0, bboxi.y0⟩
  let p1 : Point := ⟨bboxi.x1, bboxi.y0⟩
  let p2 : Point := ⟨bboxi.x0, bboxi.y1⟩
  let p3 : Point := ⟨bboxi.x1, bboxi.y1⟩
  let q0 : Point := ⟨bboxj.x0, bboxj.y0⟩
  let q1 : Point := ⟨bboxj.x1, bboxj.y0⟩
  let q2 : Point := ⟨bboxj.x0, bboxj.y1⟩
  let q3 : Point := ⟨bboxj.x1, bboxj.y1⟩
  if distZero p0 q0 && distZero p1 q1 && distZero p2 q2 && distZero p3 q3 then
    false
  else if rectContains bboxj bboxi || rectContains bboxi bboxj then
    true
  else if distLt (distSq p1 q0) distance && distLt (distSq p3 q2) distance then
    true
  else if distLt (distSq p0 q1) distance && distLt (distSq p2 q3) distance then
    true
  else if distLt (distSq p0 q2) distance && distLt (distSq p1 q3) distance then
    true
  else if distLt (distSq p2 q0) distance && distLt (distSq p3 q1) distance then
    true
  else if distLt (distSqPR p1 bboxj) distance_bbox && distLt (distSqPR p3 bboxj) distance_bbox &&
      (distLt (distSq p1 q0) distance_bbox || distLt (distSq p3 q2) distance_bbox) then
    true
  else if distLt (distSqPR p0 bboxj) distance_bbox && distLt (distSqPR p2 bboxj) distance_bbox &&
      (distLt (distSq p0 q1) distance_bbox || distLt (distSq p2 q3) distance_bbox) then
    true
  else if distLt (distSqPR p0 bboxj) distance_bbox && distLt (distSqPR p1 bboxj) distance_bbox &&
      (distLt (distSq p0 q2) distance_bbox || distLt (distSq p1 q3) distance_bbox) then
    true
  else if distLt (distSqPR p2 bboxj) distance_bbox && distLt (distSqPR p3 bboxj) distance_bbox &&
      (distLt (distSq p2 q0) distance_bbox || distLt (distSq p3 q1) distance_bbox) then
    true
  else
    false

/-- Smallest rectangle containing both (`fitz.Rect.include_rect`,
modelled from the spec §3 `include(rect)`). -/
def includeRect (a b : Rect) : Rect :=
  ⟨min a.x0 b.x0, min a.y0 b.y0, max a.x1 b.x1, max a.y1 b.y1⟩

/-- Python truthiness of a `fitz.Rect` (`if figure.bbox:`): false
exactly for the all-zero rectangle. -/
def rectTruthy (r : Rect) : Bool :=
  decide (¬(r.x0 = 0 ∧ r.y0 = 0 ∧ r.x1 = 0 ∧ r.y1 = 0))

/-! ## Images (`PIL.Image` surface used by the source) -/

/-- Model of a decoded PIL image: dimensions, mode string and an
abstract flat sample list (pixel payloads are otherwise elided). -/
structure PILImg where
  width : ℕ
  height : ℕ
  mode : String
  data : List ℕ
deriving DecidableEq, Repr

/-- Mode adjustments the source applies before `img.save` in the
assembler and merge paths: CMYK, and anything that is not RGB/RGBA/L,
is converted to RGB. Dimensions are unchanged. -/
def convertForSave (img : PILImg) : PILImg :=
  if img.mode = "CMYK" then { img with mode := "RGB" }
  else if img.mode ≠ "RGB" ∧ img.mode ≠ "RGBA" ∧ img.mode ≠ "L" then { img with mode := "RGB" }
  else img

/-! ## Image records (`ImageEmbedded`) -/

/-- Source `ImageEmbedded`. `smask : ℕ` encodes both Python `None` and
`0` as `0` (they are indistinguishable to every use site, which only
tests truthiness). `width`/`height` are `Option ℤ` because records
built as `ImageEmbedded(None, None)` leave them `None`, and synthetic
merged records store `int` results that are not a priori nonnegative. -/
structure Fig where
  xref : Option ℕ
  ext : Option String
  smask : ℕ
  colorspace : Option ℕ
  filter : Option String
  width : Option ℤ
  height : Option ℤ
  alt_colorspace : Option String
  bbox : Option Rect
  image : Option PILImg
deriving DecidableEq, Repr

/-- The record `ImageEmbedded(None, None)`: every field `None`. -/
def defaultFig : Fig :=
  ⟨none, none, 0, none, none, none, none, none, none, none⟩

/-- Source `ImageEmbedded.has_alpha`: Python `bool(self.smask)`. -/
def Fig.has_alpha (f : Fig) : Bool :=
  decide (f.smask ≠ 0)

/-- Python truthiness of an optional integer xref (`if obj.xref:`):
`None` and `0` are false. -/
def optXrefTruthy : Option ℕ → Bool
  | none => false
  | some n => decide (n ≠ 0)

/-- Python truthiness of `figure.bbox` (`None` or the zero rectangle
are false). -/
def bboxTruthy (f : Fig) : Bool :=
  match f.bbox with
  | none => false
  | some r => rectTruthy r

/-- Source `ImageEmbedded.copy`: all fields copied except `xref`, which
is cleared, and `bbox`, which is copied only when truthy (the `copy`
method guards it with `if self.bbox:`; the fresh object starts with
`bbox = None`). -/
def Fig.copy (f : Fig) : Fig :=
  { xref := none
    ext := f.ext
    smask := f.smask
    colorspace := f.colorspace
    filter := f.filter
    width := f.width
    height := f.height
    alt_colorspace := f.alt_colorspace
    image := f.image
    bbox := match f.bbox with
      | some r => if rectTruthy r then some r else none
      | none => none }

/-! ## Clustering predicate (`PDFExtractor.has_overlap`) -/

/-- External document state used by `has_overlap`: the resolved pixmap
colorspace of an xref (`fitz.Pixmap(doc, xref).colorspace`), modelled
from the spec (§4.E, §6.1) as a name lookup compared by value. -/
structure PdfEnv where
  pixColorspace : ℕ → Option String

/-- Source `PDFExtractor.has_overlap(figures, figure_i, figure_j)`.
The equal-index short-circuit precedes everything (the source returns
`True` before even indexing `figures`). Out-of-range indices are
modelled by `defaultFig` (whose `bbox` is `None`, so the result is
`false`; the source would raise `IndexError`, and all source call
sites are in range). -/
def has_overlap (env : PdfEnv) (figures : List Fig) (figure_i figure_j : ℕ) : Bool :=
  if figure_i = figure_j then
    true
  else
    let img_i := figures.getD figure_i defaultFig
    let img_j := figures.getD figure_j defaultFig
    if img_i.bbox = none ∨ img_j.bbox = none then
      false
    else if img_i.has_alpha || img_j.has_alpha then
      false
    else if optXrefTruthy img_i.xref && optXrefTruthy img_j.xref &&
        decide (img_i.filter ≠ img_j.filter) then
      false
    else if img_i.colorspace ≠ img_j.colorspace then
      false
    else if img_i.alt_colorspace ≠ img_j.alt_colorspace then
      false
    else if optXrefTruthy img_j.xref && optXrefTruthy img_i.xref &&
        decide (env.pixColorspace (img_i.xref.getD 0) ≠ env.pixColorspace (img_j.xref.getD 0)) then
      false
    else
      match img_i.bbox, img_j.bbox with
      | some bi, some bj => check_overlap bi bj OVERLAP_DISTANCE OVERLAP_DISTANCE_BBOX
      | _, _ => false

/-! ## Overlap clustering (`build_overlap_set` and helpers)

The Python code manipulates a list of `set` objects in place. Sets of
indices are modelled as `Finset ℕ`; `list(set_figs)` is modelled as the
sorted member list (CPython's iteration order over a small-int set is
an implementation detail, and no claim below depends on the choice). -/

/-- Scan order shared by the source's nested `for i / for j in
range(i, len)` loops with an `i != j` guard: the lexicographically first
pair `i < j < n` satisfying `p`. -/
def pairScan (n : ℕ) (p : ℕ → ℕ → Bool) : Option (ℕ × ℕ) :=
  (List.range n).findSome? fun i =>
    (((List.range n).filter fun j => decide (i < j)).find? fun j => p i j).map fun j => (i, j)

/-- One in-place merge step `l[i] = l[i] | l[j]; del l[j]` (the source
always has `i < j`, so the deletion does not shift index `i`). -/
def mergeAt (l : List (Finset ℕ)) (i j : ℕ) : List (Finset ℕ) :=
  (l.set i (l.getD i ∅ ∪ l.getD j ∅)).eraseIdx j

/-- Condition of `union_intersections_images`:
`bool(set.intersection(overlap_set[i], overlap_set[j]))`. -/
def intersectNE (l : List (Finset ℕ)) (i j : ℕ) : Bool :=
  decide ((l.getD i ∅ ∩ l.getD j ∅).Nonempty)

/-- Source `PDFExtractor.union_intersections_images`: repeatedly merge
the first pair of sets with a non-empty intersection until a full sweep
finds none. -/
def union_intersections_images (l : List (Finset ℕ)) : List (Finset ℕ) :=
  match h : pairScan l.length (intersectNE l) with
  | none => l
  | some (i, j) => union_intersections_images (mergeAt l i j)
termination_by l.length
decreasing_by
  have hj : j < l.length := by
    obtain ⟨a, ha, hfa⟩ := List.exists_of_findSome?_eq_some h
    obtain ⟨j', hfind, heq⟩ := Option.map_eq_some'.1 hfa
    obtain ⟨h1, h2⟩ := Prod.ext_iff.1 heq
    have hmem := List.mem_of_find?_eq_some hfind
    simp only [List.mem_filter, List.mem_range, decide_eq_true_eq] at hmem
    omega
  simp only [mergeAt]
  have := List.length_eraseIdx_of_lt (l := l.set i (l.getD i ∅ ∪ l.getD j ∅))
    (i := j) (by simpa using hj)
  simp only [List.length_set] at this ⊢
  omega

/-- Corner coincidence of two optional bboxes, the body of
`same_location_bbox_used`'s inner test (`distance_to == 0` on all four
corner pairs is coordinate equality). The source would raise
`AttributeError` on a record without a bbox; that is unreachable from
its call sites (both clusters then consist of records with non-null
bboxes), and is modelled as `false`. -/
def samePointsOpt : Option Rect → Option Rect → Bool
  | some a, some b =>
    decide (a.x0 = b.x0 ∧ a.y0 = b.y0 ∧ a.x1 = b.x1 ∧ a.y1 = b.y1)
  | _, _ => false

/-- Source `PDFExtractor.same_location_bbox_used`: some member of
`set_i` and some member of `set_j` have coincident bboxes. -/
def same_location_bbox_used (set_i set_j : Finset ℕ) (figures : List Fig) : Bool :=
  decide (∃ fi ∈ set_i, ∃ fj ∈ set_j,
    samePointsOpt (figures.getD fi defaultFig).bbox (figures.getD fj defaultFig).bbox = true)

/-- Mutation `overlap_figs[i].bbox.include_rect(overlap_figs[j].bbox)`.
Both bboxes are non-null whenever the source executes it (guarded by
`has_overlap`); otherwise the record is returned unchanged. -/
def mergeRegionFig (fi fj : Fig) : Fig :=
  match fi.bbox, fj.bbox with
  | some a, some b => { fi with bbox := some (includeRect a b) }
  | _, _ => fi

/-- Merge sweep of `union_region_fig_overlap`: repeatedly find the first
pair `i < j` whose region figures overlap (`has_overlap` on the region
list) and are not same-location protected, merge region `j` into region
`i` and set `j` into set `i`, and restart the sweep. -/
def regionMergeLoop (env : PdfEnv) (figures : List Fig) (figs : List Fig)
    (sets : List (Finset ℕ)) : List Fig × List (Finset ℕ) :=
  match h : pairScan figs.length (fun i j =>
      has_overlap env figs i j &&
        !same_location_bbox_used (sets.getD i ∅) (sets.getD j ∅) figures) with
  | none => (figs, sets)
  | some (i, j) =>
    regionMergeLoop env figures
      ((figs.set i (mergeRegionFig (figs.getD i defaultFig) (figs.getD j defaultFig))).eraseIdx j)
      (mergeAt sets i j)
termination_by figs.length
decreasing_by
  have hj : j < figs.length := by
    obtain ⟨a, ha, hfa⟩ := List.exists_of_findSome?_eq_some h
    obtain ⟨j', hfind, heq⟩ := Option.map_eq_some'.1 hfa
    obtain ⟨h1, h2⟩ := Prod.ext_iff.1 heq
    have hmem := List.mem_of_find?_eq_some hfind
    simp only [List.mem_filter, List.mem_range, decide_eq_true_eq] at hmem
    omega
  have := List.length_eraseIdx_of_lt
    (l := figs.set i (mergeRegionFig (figs.getD i defaultFig) (figs.getD j defaultFig)))
    (i := j) (by simpa using hj)
  simp only [List.length_set] at this ⊢
  omega

/-- Member list of a set, in ascending order (`list(set_figs)`). -/
def setToList (s : Finset ℕ) : List ℕ :=
  s.sort (· ≤ ·)

/-- Region record of one cluster: a copy of the first member with a
truthy bbox, its bbox widened to include every member's bbox from that
position on; the placeholder `ImageEmbedded(None, None)` when the
cluster is empty or its scanned representative has no truthy bbox.
Members with a null bbox are skipped by the fold (the source would
raise there; unreachable, since a cluster containing a truthy-bbox
record consists of records with non-null bboxes). -/
def buildUnionRegion (figures : List Fig) (s : Finset ℕ) : Fig :=
  let lf := setToList s
  let vi := (lf.findIdx? fun k => bboxTruthy (figures.getD k defaultFig)).getD 0
  if lf ≠ [] ∧ bboxTruthy (figures.getD (lf.getD vi 0) defaultFig) = true then
    let base := (figures.getD (lf.getD vi 0) defaultFig).copy
    { base with
        bbox := some ((lf.drop vi).foldl (fun r k =>
          match (figures.getD k defaultFig).bbox with
          | some rk => includeRect r rk
          | none => r) ((figures.getD (lf.getD vi 0) defaultFig).bbox.getD ⟨0, 0, 0, 0⟩)) }
  else
    defaultFig

/-- Source `PDFExtractor.union_region_fig_overlap`: build the region
figure of every cluster, run the merge sweep, and finish with
`union_intersections_images`. -/
def union_region_fig_overlap (env : PdfEnv) (figures : List Fig)
    (overlap_set : List (Finset ℕ)) : List (Finset ℕ) :=
  union_intersections_images
    (regionMergeLoop env figures (overlap_set.map (buildUnionRegion figures)) overlap_set).2

/-- Initial overlap sets: `overlap_set[i] = set(j for j in range(i, n)
if has_overlap(figures, i, j))`; always contains `i` itself because
`has_overlap(i, i)` is true. -/
def initialOverlapSet (env : PdfEnv) (figures : List Fig) : List (Finset ℕ) :=
  (List.range figures.length).map fun i =>
    (Finset.range figures.length).filter fun j => i ≤ j ∧ has_overlap env figures i j = true

/-- Fixed-point loop of `build_overlap_set`: run
`union_region_fig_overlap` until the number of clusters stops
shrinking, and return the last result. -/
def build_overlap_set_loop (env : PdfEnv) (figures : List Fig) (l : List (Finset ℕ)) :
    List (Finset ℕ) :=
  if h : (union_region_fig_overlap env figures l).length = l.length then
    union_region_fig_overlap env figures l
  else
    build_overlap_set_loop env figures (union_region_fig_overlap env figures l)
termination_by l.length
decreasing_by
  have huii : ∀ m : List (Finset ℕ), (union_intersections_images m).length ≤ m.length := by
    intro m
    induction m using union_intersections_images.induct with
    | case1 m hnone => rw [union_intersections_images.eq_def, hnone]
    | case2 m i j hsome ih =>
      rw [union_intersections_images.eq_def, hsome]
      refine le_trans ih ?_
      simp only [mergeAt]
      refine le_trans (List.length_eraseIdx_le _ _) ?_
      simp
  have hrml : ∀ fs : List Fig, ∀ ss : List (Finset ℕ),
      ((regionMergeLoop env figures fs ss).2).length ≤ ss.length := by
    intro fs ss
    induction fs, ss using regionMergeLoop.induct env figures with
    | case1 fs ss hnone => rw [regionMergeLoop.eq_def, hnone]
    | case2 fs ss i j hsome ih =>
      rw [regionMergeLoop.eq_def, hsome]
      refine le_trans ih ?_
      simp only [mergeAt]
      refine le_trans (List.length_eraseIdx_le _ _) ?_
      simp
  have hle : (union_region_fig_overlap env figures l).length ≤ l.length := by
    refine le_trans (huii _) ?_
    refine le_trans (hrml _ _) ?_
    exact le_refl _
  omega

/-- Source `PDFExtractor.build_overlap_set`. -/
def build_overlap_set (env : PdfEnv) (figures : List Fig) : List (Finset ℕ) :=
  build_overlap_set_loop env figures (union_intersections_images (initialOverlapSet env figures))

/-- Index `k` is covered by some cluster of the list (stated through
positional access so that in-place merges can be tracked). -/
def covers (l : List (Finset ℕ)) (k : ℕ) : Prop :=
  ∃ t, k ∈ l.getD t ∅

/-- All members of all clusters are below `n`. -/
def boundedBy (l : List (Finset ℕ)) (n : ℕ) : Prop :=
  ∀ s ∈ l, ∀ k ∈ s, k < n

/-- Environment in which no xref resolves to a pixmap colorspace. -/
def envNone : PdfEnv :=
  ⟨fun _ => none⟩

/-- Record with a `FlateDecode` stream filter but no xref (counterexample
input for the filter-guard claim). -/
def figFilterA : Fig :=
  { defaultFig with
      filter := some "FlateDecode", colorspace := some 3, bbox := some ⟨0, 0, 10, 10⟩ }

/-- Record with a `DCTDecode` stream filter but no xref, painted inside
`figFilterA`. -/
def figFilterB : Fig :=
  { defaultFig with
      filter := some "DCTDecode", colorspace := some 3, bbox := some ⟨1, 1, 5, 5⟩ }

def figsFilterCex : List Fig := [figFilterA, figFilterB]

/-- Two attribute-identical xref-less records with nested bboxes, witness
input for the guard characterization of `has_overlap`. -/
def figGuardA : Fig :=
  { defaultFig with colorspace := some 3, bbox := some ⟨0, 0, 10, 10⟩ }

def figGuardB : Fig :=
  { defaultFig with colorspace := some 3, bbox := some ⟨1, 1, 5, 5⟩ }

def figsGuardW : List Fig := [figGuardA, figGuardB]

/-! ## Merging two records (`PDFExtractor.merge_images`)

The source loads the two records' PIL images through `_load_image`
(document access), modelled by a `load : Fig → PILImg` environment.
File writes are collected in a `writes` list; `numpy` float64 rounding
(`np.round`, half to even) and `int()` truncation are modelled exactly
over `ℚ`. The `np.round(, 3)` applied to the already-integral offsets
is the identity and is not repeated. A zero-width or zero-height bbox
would raise `ZeroDivisionError` in the source; `ℚ` division by zero
yields `0` here, and the claims below never divide by zero. -/

/-- Rectangle width (`fitz.Rect.width`). -/
def Rect.width (r : Rect) : ℚ :=
  r.x1 - r.x0

/-- Rectangle height (`fitz.Rect.height`). -/
def Rect.height (r : Rect) : ℚ :=
  r.y1 - r.y0

/-- Python `int()` on a float: truncation toward zero. -/
def intTrunc (x : ℚ) : ℤ :=
  if x < 0 then ⌈x⌉ else ⌊x⌋

/-- Rounding half to even to an integer (`np.round(x)`' tie rule). -/
def roundHalfEven (x : ℚ) : ℤ :=
  if x - ⌊x⌋ < 1 / 2 then ⌊x⌋
  else if 1 / 2 < x - ⌊x⌋ then ⌊x⌋ + 1
  else if Even ⌊x⌋ then ⌊x⌋ else ⌊x⌋ + 1

/-- Rounding to one decimal, half to even (`np.round(x, 1)`). -/
def npRound1 (x : ℚ) : ℚ :=
  (roundHalfEven (10 * x) : ℚ) / 10

/-- Canvas pixel width of a merge:
`int(np.round(np.mean([sketch.width * w / (bbox.x1 - bbox.x0) for each record]), 1))`. -/
def mergeRealW (bi bj : Rect) (wi wj : ℚ) : ℤ :=
  intTrunc (npRound1 (((includeRect bi bj).width * wi / (bi.x1 - bi.x0) +
    (includeRect bi bj).width * wj / (bj.x1 - bj.x0)) / 2))

/-- Canvas pixel height of a merge, analogous to `mergeRealW`. -/
def mergeRealH (bi bj : Rect) (hi hj : ℚ) : ℤ :=
  intTrunc (npRound1 (((includeRect bi bj).height * hi / (bi.y1 - bi.y0) +
    (includeRect bi bj).height * hj / (bj.y1 - bj.y0)) / 2))

/-- Placement offsets of the two records on the merge canvas, first the
x tuple `(x0_i, x1_i, x0_j, x1_j)`, then the y tuple: the record whose
bbox starts strictly first on an axis is anchored at offset `0`, the
other at `real - its pixel size`, clamped to `≥ 0`; on a tie the
`else` branch applies (record `j` anchored at `0`). -/
def mergeOffsets (bi bj : Rect) (wi wj hi hj : ℤ) (real_w real_h : ℤ) :
    (ℤ × ℤ × ℤ × ℤ) × (ℤ × ℤ × ℤ × ℤ) :=
  let sketch := includeRect bi bj
  let xs :=
    if bi.x0 < bj.x0 then
      (0, intTrunc ((real_w : ℚ) * (bi.x1 - bi.x0) / sketch.width),
        max 0 (real_w - wj), real_w)
    else
      (max 0 (real_w - wi), real_w,
        0, intTrunc ((real_w : ℚ) * (bj.x1 - bj.x0) / sketch.width))
  let ys :=
    if bi.y0 < bj.y0 then
      (0, intTrunc ((real_h : ℚ) * (bi.y1 - bi.y0) / sketch.height),
        max 0 (real_h - hj), real_h)
    else
      (max 0 (real_h - hi), real_h,
        0, intTrunc ((real_h : ℚ) * (bj.y1 - bj.y0) / sketch.height))
  (xs, ys)

/-- Result of `merge_images`: the returned `(res_img, res_obj)` pair,
the images flushed to their own files by the sanity-guard paths, and
the image counter after the call. -/
structure MergeRes where
  resImg : PILImg
  resObj : Fig
  writes : List PILImg
  counter : ℕ
deriving DecidableEq, Repr

/-- Source `PDFExtractor.merge_images(obj_i, obj_j, file_name)`. Four
sanity-guard branches flush one image (only when it is strictly larger
than 10×10) and return the other pair unchanged; otherwise a white
`real_w × real_h` RGB canvas is allocated, `img_j` pasted first and
`img_i` second, and a synthetic record is returned. `none` models the
`AttributeError` the source would raise on a record without a bbox.
The fourth guard's save is the one source path without mode
conversion. A negative canvas size would raise in `PIL.Image.new`;
`Int.toNat` clamps instead, and no claim exercises that case. -/
def merge_images (load : Fig → PILImg) (counter : ℕ) (obj_i obj_j : Fig) : Option MergeRes :=
  match obj_i.bbox, obj_j.bbox with
  | some bi, some bj =>
    let img_i := load obj_i
    let img_j := load obj_j
    let sketch := includeRect bi bj
    let real_w := mergeRealW bi bj (obj_i.width.getD 0 : ℤ) (obj_j.width.getD 0 : ℤ)
    let real_h := mergeRealH bi bj (obj_i.height.getD 0 : ℤ) (obj_j.height.getD 0 : ℤ)
    let off := mergeOffsets bi bj (obj_i.width.getD 0) (obj_j.width.getD 0)
      (obj_i.height.getD 0) (obj_j.height.getD 0) real_w real_h
    let x0_i := off.1.1
    let x0_j := off.1.2.2.1
    let y0_i := off.2.1
    let y0_j := off.2.2.2.1
    if x0_i < x0_j ∧ x0_i + (img_i.width : ℤ) - x0_j > 10 then
      if (img_j.width : ℤ) > 10 ∧ (img_j.height : ℤ) > 10 then
        some ⟨img_i, obj_i, [convertForSave img_j], counter + 1⟩
      else
        some ⟨img_i, obj_i, [], counter⟩
    else if x0_j < x0_i ∧ x0_j + (img_j.width : ℤ) - x0_i > 10 then
      if (img_i.width : ℤ) > 10 ∧ (img_i.height : ℤ) > 10 then
        some ⟨img_j, obj_j, [convertForSave img_i], counter + 1⟩
      else
        some ⟨img_j, obj_j, [], counter⟩
    else if y0_i < y0_j ∧ y0_i + (img_i.height : ℤ) - y0_j > 10 then
      if (img_j.width : ℤ) > 10 ∧ (img_j.height : ℤ) > 10 then
        some ⟨img_i, obj_i, [convertForSave img_j], counter + 1⟩
      else
        some ⟨img_i, obj_i, [], counter⟩
    else if y0_j < y0_i ∧ y0_j + (img_j.height : ℤ) - y0_i > 10 then
      if (img_i.width : ℤ) > 10 ∧ (img_i.height : ℤ) > 10 then
        some ⟨img_j, obj_j, [img_i], counter + 1⟩
      else
        some ⟨img_j, obj_j, [], counter⟩
    else
      let res_img : PILImg := ⟨real_w.toNat, real_h.toNat, "RGB", []⟩
      let m : Fig :=
        { xref := none
          ext := obj_j.ext
          smask := 0
          colorspace := obj_j.colorspace
          filter := none
          width := some real_w
          height := some real_h
          alt_colorspace := none
          image := some res_img
          bbox := if rectTruthy sketch then some sketch else none }
      some ⟨res_img, m, [], counter⟩
  | _, _ => none

/-- Load environment returning each record's own pixel dimensions. -/
def loadDims : Fig → PILImg :=
  fun f => ⟨(f.width.getD 0).toNat, (f.height.getD 0).toNat, "RGB", []⟩

/-- Load environment returning a fixed 100×100 grayscale image. -/
def load100 : Fig → PILImg :=
  fun _ => ⟨100, 100, "L", []⟩

/-- Counterexample record `i` for the merge sanity guard: 20×20 px at
bbox `[0, 0, 10, 10]`. -/
def objMergeI : Fig :=
  { defaultFig with
      width := some 20, height := some 20, bbox := some ⟨0, 0, 10, 10⟩ }

/-- Counterexample record `j` for the merge sanity guard: 40×40 px at
bbox `[1, 1, 11, 11]`. -/
def objMergeJ : Fig :=
  { defaultFig with
      width := some 40, height := some 40, bbox := some ⟨1, 1, 11, 11⟩ }

/-- The synthetic record `merge_images` produces for
`objMergeI`/`objMergeJ` under `loadDims`. -/
def mergedMergeObj : Fig :=
  { xref := none
    ext := none
    smask := 0
    colorspace := none
    filter := none
    width := some 33
    height := some 33
    alt_colorspace := none
    image := some ⟨33, 33, "RGB", []⟩
    bbox := some ⟨0, 0, 11, 11⟩ }

/-- Witness records for the merge guard characterization: `i` at
`[0, 0, 10, 10]`, `j` at `[9, 0, 19, 10]`, both declared 40×20 px. -/
def objGuardWI : Fig :=
  { defaultFig with
      width := some 40, height := some 20, bbox := some ⟨0, 0, 10, 10⟩ }

def objGuardWJ : Fig :=
  { defaultFig with
      width := some 40, height := some 20, bbox := some ⟨9, 0, 19, 10⟩ }

/-! ## Assembling a cluster (`PDFExtractor.assembly_image`)

The assembly loop genuinely need not terminate (after a corruption
escape the distance resets to `0.5` while `not_found` can exceed the
list length forever), so it is embedded with an explicit fuel
parameter; `none` models a run that exhausts the given fuel (or one of
the merge crashes). The dead `sketch` computed at entry and the output
filenames are elided. -/

/-- Sort key `(x.x1, x.y1, x.x0, x.y0)` of the assembly sorts. A record
without a bbox would raise `AttributeError` in the source; the zero
rectangle stands in for it here (no claim sorts such a record). -/
def figKey (f : Fig) : ℚ × ℚ × ℚ × ℚ :=
  ((f.bbox.getD ⟨0, 0, 0, 0⟩).x1, (f.bbox.getD ⟨0, 0, 0, 0⟩).y1,
    (f.bbox.getD ⟨0, 0, 0, 0⟩).x0, (f.bbox.getD ⟨0, 0, 0, 0⟩).y0)

/-- Lexicographic comparison of sort keys. -/
def keyLe : ℚ × ℚ × ℚ × ℚ → ℚ × ℚ × ℚ × ℚ → Bool
  | (a1, a2, a3, a4), (b1, b2, b3, b4) =>
    if a1 ≠ b1 then decide (a1 < b1)
    else if a2 ≠ b2 then decide (a2 < b2)
    else if a3 ≠ b3 then decide (a3 < b3)
    else decide (a4 ≤ b4)

/-- Stable insertion into a key-sorted list (equal keys keep the
existing element first, matching Python's stable sort). -/
def insertFig (f : Fig) : List Fig → List Fig
  | [] => [f]
  | g :: gs => if keyLe (figKey g) (figKey f) then g :: insertFig f gs else f :: g :: gs

/-- Stable ascending sort by `figKey` (`figures.sort(key=...)`). -/
def sortFigs (l : List Fig) : List Fig :=
  l.foldl (fun acc f => insertFig f acc) []

/-- Inner scan of the assembly loop: index of the first remaining
record overlapping the popped head at the current distance
(`check_overlap(obj_i.bbox, obj_j.bbox, distance)` with the default
`distance_bbox`). -/
def findMergePartner (distance : ℚ) (obj_i : Fig) (rest : List Fig) : Option ℕ :=
  (List.range rest.length).find? fun j =>
    check_overlap (obj_i.bbox.getD ⟨0, 0, 0, 0⟩)
      ((rest.getD j defaultFig).bbox.getD ⟨0, 0, 0, 0⟩) distance OVERLAP_DISTANCE_BBOX

/-- Mutable state of the assembly loop: the figure work list, the
images written so far, the image counter, the widening `distance`, the
`not_found` rotation counter, and the last merge result
`(res_img, res_obj)`. -/
structure AsmState where
  figures : List Fig
  writes : List PILImg
  counter : ℕ
  distance : ℚ
  not_found : ℕ
  res : Option (PILImg × Fig)
deriving Repr

/-- The `while len(figures) > 1` loop of `assembly_image`. Branches, in
source order: merge the head with the first overlap partner (resetting
`not_found` so the head is not re-appended); when a full rotation found
nothing (`not_found == len(figures)` after the pop), either — at
distance 5 — flush the head unconditionally (the corruption escape: no
minimum-size check) and reset the distance to `0.5`, or widen the
distance by `0.5` and silently drop the head; otherwise rotate the head
to the back after re-sorting the rest. -/
def assembly_loop (load : Fig → PILImg) : ℕ → AsmState → Option AsmState
  | 0, _ => none
  | fuel + 1, st =>
    if st.figures.length ≤ 1 then some st
    else
      match st.figures with
      | [] => some st
      | obj_i :: rest =>
        match findMergePartner st.distance obj_i rest with
        | some j =>
          match merge_images load st.counter obj_i (rest.getD j defaultFig) with
          | none => none
          | some r =>
            assembly_loop load fuel
              { figures := rest.eraseIdx j ++ [r.resObj]
                writes := st.writes ++ r.writes
                counter := r.counter
                distance := st.distance
                not_found := 1
                res := some (r.resImg, r.resObj) }
        | none =>
          if st.not_found = rest.length then
            if st.distance = 5 then
              assembly_loop load fuel
                { figures := rest
                  writes := st.writes ++ [convertForSave (load obj_i)]
                  counter := st.counter + 1
                  distance := 1 / 2
                  not_found := st.not_found
                  res := st.res }
            else
              assembly_loop load fuel
                { figures := rest
                  writes := st.writes
                  counter := st.counter
                  distance := st.distance + 1 / 2
                  not_found := 1
                  res := st.res }
          else
            assembly_loop load fuel
              { figures := sortFigs rest ++ [obj_i]
                writes := st.writes
                counter := st.counter
                distance := st.distance
                not_found := st.not_found + 1
                res := st.res }

/-- Source `PDFExtractor.assembly_image(figures, file_name)`: sort,
run the loop, then — when a merge result exists — reject composites
below the minimum size (returning `False` with the guard/escape writes
already on disk) or write the composite and return `True`; with no
merge result the source raises `ValueError("Assembly failed")`, caught
by its own handler, returning `False`. The final composite write does
not advance the image counter (as in the source). -/
def assembly_image (load : Fig → PILImg) (fuel : ℕ) (figures : List Fig) (counter : ℕ) :
    Option (List PILImg × ℕ × Bool) :=
  match assembly_loop load fuel
      { figures := sortFigs figures, writes := [], counter := counter,
        distance := 1, not_found := 1, res := none } with
  | none => none
  | some st =>
    match st.res with
    | some (img, _) =>
      if img.width < MIN_IMAGE_WIDTH ∨ img.height < MIN_IMAGE_HEIGHT then
        some (st.writes, st.counter, false)
      else
        some (st.writes ++ [convertForSave img], st.counter, true)
    | none => some (st.writes, st.counter, false)

/-- Load environment returning a fixed 5×5 RGB image (below the
minimum output size). -/
def load5 : Fig → PILImg :=
  fun _ => ⟨5, 5, "RGB", []⟩

/-- Ten 5×5 records spaced 100 points apart: pairwise non-overlapping
at every distance the assembler tries, driving it through eight
distance widenings into the corruption escape. -/
def figsFar : List Fig :=
  (List.range 10).map fun k =>
    { defaultFig with
        width := some 5, height := some 5,
        bbox := some ⟨(100 * k : ℕ), 0, (100 * k : ℕ) + 5, 5⟩ }

/-! ## Pixel writer (`write_img`, `write_alpha_imgs`) -/

def COLORSPACE_GRAY : String := "DeviceGray"

def COLORSPACE_RGB : String := "DeviceRGB"

def COLORSPACE_CMYK : String := "DeviceCMYK"

/-- Python exceptions surfaced by the writer paths. -/
inductive PyExc
  | ioError
  | valueError
  | convError
deriving DecidableEq, Repr

/-- Model of a `fitz.Pixmap`: dimensions, resolved colorspace name
(`none` for a null colorspace) and the `alpha` attribute the source
compares with `> 1`. -/
structure Pixmap where
  width : ℕ
  height : ℕ
  colorspace : Option String
  alpha : ℕ
deriving DecidableEq, Repr

/-- Modelled from the spec (§6.1): the PDF/PIL library operations
`write_img` delegates to. `toRGB` is `fitz.Pixmap(fitz.csRGB, pix)`
(`none` models a conversion failure raising), `toPngBytes` is
`pix.tobytes('png')`, `imgOfPng` is `PIL.Image.open` on those bytes,
`pilImage` is `pix.pil_image()`, and `saveRaises` models an I/O
failure inside `PIL.Image.save`. -/
structure WriteEnv where
  toRGB : Pixmap → Option Pixmap
  toPngBytes : Pixmap → List ℕ
  imgOfPng : List ℕ → PILImg
  pilImage : Pixmap → PILImg
  saveRaises : Bool

/-- Source `PDFExtractor.write_alpha_imgs` on a bytes argument (the
only kind its callers pass): raise `ValueError` on empty data, skip
images below the minimum size, else composite onto a white RGB
background of the same size and save. -/
def write_alpha_imgs (env : WriteEnv) (img_data : List ℕ) : Except PyExc (Bool × List PILImg) :=
  if img_data = [] then
    Except.error PyExc.valueError
  else
    let img := env.imgOfPng img_data
    if img.width < MIN_IMAGE_WIDTH ∨ img.height < MIN_IMAGE_HEIGHT then
      Except.ok (false, [])
    else if env.saveRaises then
      Except.error PyExc.ioError
    else
      Except.ok (true, [⟨img.width, img.height, "RGB", img.data⟩])

/-- Body of `write_img`'s `try` block: the per-colorspace decision
table. The Gray/`Separation`/`DeviceN` intensity inversion
(`invertIRect`) mutates pixels only, which this model elides. In the
unknown-colorspace branch every exception is caught and reported as a
`false` result (matching the inner `try`). -/
def write_img_body (env : WriteEnv) (pix : Pixmap) (alt_colorspace : Option String) :
    Except PyExc (Bool × List PILImg) :=
  match pix.colorspace with
  | some cs =>
    if cs = COLORSPACE_GRAY then
      if pix.alpha > 1 then
        match env.toRGB pix with
        | none => Except.error PyExc.convError
        | some pixRGB => write_alpha_imgs env (env.toPngBytes pixRGB)
      else
        if env.saveRaises then Except.error PyExc.ioError
        else Except.ok (true, [env.pilImage pix])
    else if cs = COLORSPACE_RGB then
      if pix.alpha > 1 then
        write_alpha_imgs env (env.toPngBytes pix)
      else
        if env.saveRaises then Except.error PyExc.ioError
        else Except.ok (true, [env.pilImage pix])
    else if cs = COLORSPACE_CMYK then
      match env.toRGB pix with
      | none => Except.error PyExc.convError
      | some pixRGB =>
        if pixRGB.alpha > 1 then
          write_alpha_imgs env (env.toPngBytes pixRGB)
        else
          let pil := env.pilImage pixRGB
          let pil := if pil.mode = "CMYK" then { pil with mode := "RGB" } else pil
          if env.saveRaises then Except.error PyExc.ioError
          else Except.ok (true, [pil])
    else
      match env.toRGB pix with
      | none => Except.ok (false, [])
      | some pixRGB =>
        let pil := env.pilImage pixRGB
        let pil := if pil.mode ≠ "RGB" ∧ pil.mode ≠ "RGBA" then { pil with mode := "RGB" } else pil
        if env.saveRaises then Except.ok (false, [])
        else Except.ok (true, [pil])
  | none => Except.ok (false, [])

/-- Source `PDFExtractor.write_img(pix, file_name, alt_colorspace)`:
two silent pre-checks before the `try` block (too-small image, then
empty colorspace), then the decision table with `ValueError` caught
and turned into a `false` return; other exceptions propagate. -/
def write_img (env : WriteEnv) (pix : Pixmap) (alt_colorspace : Option String) :
    Except PyExc (Bool × List PILImg) :=
  if pix.width < MIN_IMAGE_WIDTH ∨ pix.height < MIN_IMAGE_HEIGHT then
    Except.ok (false, [])
  else if pix.colorspace.isNone then
    Except.ok (false, [])
  else
    match write_img_body env pix alt_colorspace with
    | Except.error PyExc.valueError => Except.ok (false, [])
    | r => r

/-- Concrete writer environment for witnesses. -/
def envWriteW : WriteEnv :=
  ⟨fun _ => none, fun _ => [], fun _ => ⟨0, 0, "RGB", []⟩, fun _ => ⟨0, 0, "RGB", []⟩, false⟩

/-! ## Mode and output validation (`extract_all`) -/

/-- Python exceptions of `extract_all`'s argument validation. -/
inductive PyError
  | valueError
  | ioError
deriving DecidableEq, Repr

/-- Source `PDFExtractor.extract_all(input_path, out_name, mode)`
argument validation and dispatch. The filesystem is the `isdir`
environment; the returned string is the mode whose sub-extractor is
then invoked (`_extract_all_normal` / `_safe` / `_unsafe`) — both
error results are raised before any document is opened or any file
written, and before any dispatch. A list-valued `out_name` (the source
takes its first element) is elided; the claim concerns strings. -/
def extract_all (isdir : String → Bool) (out_name mode : String) : Except PyError String :=
  if mode ∉ operations_mode then
    Except.error PyError.valueError
  else if ¬ isdir out_name then
    Except.error PyError.ioError
  else
    Except.ok mode

/-- Filesystem with no directories. -/
def isdirNone : String → Bool :=
  fun _ => false

deriving instance DecidableEq for Except

/-! ## Orchestrator (`_extract_all_normal`, one document)

Signals and the filesystem are modelled as an event trace. A
`TimeoutError` outcome of `normal_mode` means the `SIGALRM` installed
before the call fired (its handler raises exactly that), so no alarm
remains pending; `KeyboardInterrupt` is not a subclass of `Exception`
and escapes both retry handlers. `finally` always clears the alarm and
runs the post-processor, even when an exception escapes. -/

/-- Outcome of one extraction attempt (`normal_mode` / `safe_mode`). -/
inductive RunOutcome
  | ok
  | timeoutErr
  | otherErr
  | kbInterrupt
deriving DecidableEq, Repr

/-- Observable orchestrator action. `runSafe n` records how many
seconds of alarm are pending when the safe-mode retry starts. -/
inductive OrcEvent
  | setAlarm (seconds : ℕ)
  | clearAlarm
  | removeTree
  | runSafe (alarmPending : ℕ)
  | runPost
deriving DecidableEq, Repr

/-- Shared body of both retry handlers: delete the partial output
directory if it exists, run safe mode, and on any `Exception` from it
delete the directory again; `KeyboardInterrupt` escapes. -/
def safe_retry_events (alarmPending : ℕ) (safeRes : RunOutcome) (dirBefore dirAfter : Bool) :
    List OrcEvent × Bool :=
  ((if dirBefore then [OrcEvent.removeTree] else []) ++ [OrcEvent.runSafe alarmPending] ++
    (match safeRes with
     | RunOutcome.ok => []
     | RunOutcome.kbInterrupt => []
     | _ => if dirAfter then [OrcEvent.removeTree] else []),
    decide (safeRes = RunOutcome.kbInterrupt))

/-- Source `_extract_all_normal`, one document of the loop: install the
handler and a 600 s alarm, run Normal mode, dispatch on its outcome
(`KeyboardInterrupt` clears the alarm and re-raises; `TimeoutError`
retries Safe mode with *no* alarm manipulation — the alarm has already
fired, so none is pending; any other exception clears and re-arms a
fresh 600 s alarm first), and in all cases finally clear the alarm and
run the post-processor. The boolean is true when an exception escapes
the document's handling. -/
def process_document (normalRes safeRes : RunOutcome) (dirBefore dirAfter : Bool) :
    List OrcEvent × Bool :=
  let core : List OrcEvent × Bool :=
    match normalRes with
    | RunOutcome.ok => ([OrcEvent.setAlarm EXTRACTION_TIMEOUT], false)
    | RunOutcome.kbInterrupt =>
      ([OrcEvent.setAlarm EXTRACTION_TIMEOUT, OrcEvent.clearAlarm], true)
    | RunOutcome.timeoutErr =>
      let r := safe_retry_events 0 safeRes dirBefore dirAfter
      (OrcEvent.setAlarm EXTRACTION_TIMEOUT :: r.1, r.2)
    | RunOutcome.otherErr =>
      let r := safe_retry_events EXTRACTION_TIMEOUT safeRes dirBefore dirAfter
      (OrcEvent.setAlarm EXTRACTION_TIMEOUT :: OrcEvent.clearAlarm ::
        OrcEvent.setAlarm EXTRACTION_TIMEOUT :: r.1, r.2)
  (core.1 ++ [OrcEvent.clearAlarm, OrcEvent.runPost], core.2)

/-! ## Post-processor duplicate elimination (`is_equal_imgs`)

The filename counter machinery is modelled exactly:
`int(x[x.rfind("-"):-4])` keeps the dash in the slice, so the parsed
key is the *negated* counter, and `sorted(..., reverse=True)` on that
key orders the pair by *ascending* counter. -/

/-- Python `x.rfind("-")` on a string containing a dash: index of the
last dash (meaningless when no dash is present, which no use below
exercises). -/
def pyRfindDash (cs : List Char) : ℕ :=
  cs.length - 1 - (cs.reverse.findIdx fun c => c = '-')

/-- Python slice `x[i:-4]` (for `i ≤ len - 4`). -/
def sliceToMinus4 (cs : List Char) (i : ℕ) : List Char :=
  (cs.take (cs.length - 4)).drop i

def parseDigits (cs : List Char) : ℕ :=
  cs.foldl (fun a c => a * 10 + (c.toNat - 48)) 0

/-- Python `int()` on a (well-formed) digit string with an optional
leading minus sign. -/
def pyInt : List Char → ℤ
  | '-' :: rest => -(parseDigits rest : ℤ)
  | cs => (parseDigits cs : ℤ)

/-- The sort key `int(x[x.rfind("-"):-4])` used by
`posprocessing_extraction` and `is_equal_imgs`: the negated filename
counter (the slice keeps the dash). -/
def imgSortKey (s : String) : ℤ :=
  pyInt (sliceToMinus4 s.toList (pyRfindDash s.toList))

/-- Python `sorted([a, b], key=key, reverse=True)` (stable: ties keep
the original order). -/
def sortedPairDesc (key : String → ℤ) (a b : String) : String × String :=
  if key a ≥ key b then (a, b) else (b, a)

/-- Source `PDFExtractor.is_equal_imgs(img_path_i, img_path_j)` over an
`openImg` environment (`PIL.Image.open`). Returns
`(are_equal, path_to_delete)`. `ImageChops.difference(...).getbbox()
is None` holds exactly when two equal-size images have identical
pixels, modelled as equality of the sample lists. -/
def is_equal_imgs (openImg : String → PILImg) (img_path_i img_path_j : String) :
    Bool × Option String :=
  let img_i := openImg img_path_i
  let img_j := openImg img_path_j
  if (img_i.width, img_i.height) ≠ (img_j.width, img_j.height) then (false, none)
  else if img_i.mode ≠ img_j.mode ∧ img_j.mode = "L" then (true, some img_path_j)
  else if img_i.mode ≠ img_j.mode ∧ img_i.mode = "L" then (true, some img_path_i)
  else if img_i.mode = img_j.mode ∧ img_i.mode = "L" then
    (true, some (sortedPairDesc imgSortKey img_path_i img_path_j).2)
  else if img_i.mode = img_j.mode ∧ img_i.data = img_j.data then (true, some img_path_i)
  else (false, none)

/-- Grayscale 20×20 image store. -/
def openGrayW : String → PILImg :=
  fun _ => ⟨20, 20, "L", []⟩

/-- Near-duplicate output filenames with counters 1 and 2. -/
def imgPathC1 : String := "out/p-1-x0-0.000-y0-0.000-x1-50.000-y1-50.000-1.png"

def imgPathC2 : String := "out/p-1-x0-0.000-y0-0.000-x1-50.000-y1-50.000-2.png"

/-- Near-duplicate output filenames with counters 3 and 7. -/
def imgPathW3 : String := "out/p-2-x0-1.000-y0-1.000-x1-9.000-y1-9.000-3.png"

def imgPathW7 : String := "out/p-2-x0-1.000-y0-1.000-x1-9.000-y1-9.000-7.png"

-- THEOREMS

/-- C10: for every list of figures and every index `i`,
`has_overlap(figures, i, i)` returns true; the equal-index
short-circuit precedes the null-bbox, alpha and attribute guards (and
even the list indexing itself). -/
theorem has_overlap_refl (env : PdfEnv) (figures : List Fig) (i : ℕ) :
    has_overlap env figures i i = true := by
  simp [has_overlap]

/-- C4: if all four corners of `a` coincide exactly with those of `b`,
`check_overlap(a, b)` returns false (the same-location rule is tested
first), even though, for a well-formed rectangle, each of the two
coincident rectangles contains the other. -/
theorem check_overlap_coincident (a b : Rect)
    (hc : get_rectangles_points a = get_rectangles_points b)
    (hx : a.x0 ≤ a.x1) (hy : a.y0 ≤ a.y1) :
    check_overlap a b OVERLAP_DISTANCE OVERLAP_DISTANCE_BBOX = false ∧
    rectContains a b = true ∧ rectContains b a = true := by
  obtain ⟨ax0, ay0, ax1, ay1⟩ := a
  obtain ⟨bx0, by0, bx1, by1⟩ := b
  simp only [get_rectangles_points, Prod.mk.injEq, Point.mk.injEq] at hc
  obtain ⟨⟨h1, h2⟩, ⟨h3, -⟩, ⟨-, h4⟩, -⟩ := hc
  subst h1; subst h2; subst h3; subst h4
  refine ⟨?_, ?_, ?_⟩
  · simp [check_overlap, distZero, distSq]
  · simp only [rectContains, decide_eq_true_eq]
    exact ⟨le_refl _, hx, le_refl _, le_refl _, hy, le_refl _⟩
  · simp only [rectContains, decide_eq_true_eq]
    exact ⟨le_refl _, hx, le_refl _, le_refl _, hy, le_refl _⟩

theorem check_overlap_coincident_witness :
    check_overlap ⟨0, 0, 5, 5⟩ ⟨0, 0, 5, 5⟩ OVERLAP_DISTANCE OVERLAP_DISTANCE_BBOX = false ∧
    rectContains ⟨0, 0, 5, 5⟩ ⟨0, 0, 5, 5⟩ = true ∧
    rectContains ⟨0, 0, 5, 5⟩ ⟨0, 0, 5, 5⟩ = true :=
  check_overlap_coincident ⟨0, 0, 5, 5⟩ ⟨0, 0, 5, 5⟩ (by decide) (by decide) (by decide)

/-- C3 counterexample: two distinct records with non-null bboxes and
different PDF stream filters, but without xrefs; `has_overlap` still
returns true (the filter guard only applies when both records carry a
truthy xref), refuting the claim that differing filters alone force a
false result. -/
theorem has_overlap_filter_mismatch_cex :
    has_overlap envNone figsFilterCex 0 1 = true ∧
    (figsFilterCex.getD 0 defaultFig).filter ≠ (figsFilterCex.getD 1 defaultFig).filter ∧
    (figsFilterCex.getD 0 defaultFig).bbox ≠ none ∧
    (figsFilterCex.getD 1 defaultFig).bbox ≠ none := by
  with_unfolding_all decide

/-- C3 (amended): for distinct indices with non-null bboxes,
`has_overlap` returns false when either record has alpha, when *both
records carry truthy xrefs* and their stream filters differ, when their
colorspace component counts differ, when their alt_colorspaces differ,
or when *both carry truthy xrefs* and their resolved pixmap colorspaces
differ; when none of these guards fires it returns `check_overlap` on
the two bboxes. -/
theorem has_overlap_guards (env : PdfEnv) (figures : List Fig) (i j : ℕ) (fi fj : Fig)
    (hij : i ≠ j)
    (hfi : figures.getD i defaultFig = fi) (hfj : figures.getD j defaultFig = fj)
    (bi bj : Rect) (hbi : fi.bbox = some bi) (hbj : fj.bbox = some bj) :
    (fi.has_alpha = true ∨ fj.has_alpha = true → has_overlap env figures i j = false) ∧
    (optXrefTruthy fi.xref = true → optXrefTruthy fj.xref = true → fi.filter ≠ fj.filter →
      has_overlap env figures i j = false) ∧
    (fi.colorspace ≠ fj.colorspace → has_overlap env figures i j = false) ∧
    (fi.alt_colorspace ≠ fj.alt_colorspace → has_overlap env figures i j = false) ∧
    (optXrefTruthy fi.xref = true → optXrefTruthy fj.xref = true →
      env.pixColorspace (fi.xref.getD 0) ≠ env.pixColorspace (fj.xref.getD 0) →
      has_overlap env figures i j = false) ∧
    (fi.has_alpha = false → fj.has_alpha = false →
      fi.colorspace = fj.colorspace → fi.alt_colorspace = fj.alt_colorspace →
      (optXrefTruthy fi.xref = true → optXrefTruthy fj.xref = true →
        fi.filter = fj.filter ∧
        env.pixColorspace (fi.xref.getD 0) = env.pixColorspace (fj.xref.getD 0)) →
      has_overlap env figures i j =
        check_overlap bi bj OVERLAP_DISTANCE OVERLAP_DISTANCE_BBOX) := by
  simp only [has_overlap, if_neg hij, hfi, hfj, hbi, hbj]
  refine ⟨?_, ?_, ?_, ?_, ?_, ?_⟩
  · rintro (h | h) <;> simp [h]
  · intro h1 h2 h3
    simp [h1, h2, h3, hbi, hbj]
  · intro h
    simp [h, hbi, hbj]
  · intro h
    by_cases hcs : fi.colorspace = fj.colorspace <;> simp [h, hcs, hbi, hbj]
  · intro h1 h2 h3
    by_cases hf : fi.filter = fj.filter <;>
      by_cases hcs : fi.colorspace = fj.colorspace <;>
      by_cases halt : fi.alt_colorspace = fj.alt_colorspace <;>
      simp [h1, h2, h3, hf, hcs, halt, hbi, hbj]
  · intro h1 h2 hcs halt hx
    cases hxi : optXrefTruthy fi.xref <;> cases hxj : optXrefTruthy fj.xref <;>
      simp [h1, h2, hcs, halt, hxi, hxj, hbi, hbj]
    · obtain ⟨hf, hp⟩ := hx hxi hxj
      simp [hf, hp]

theorem has_overlap_guards_witness :
    has_overlap envNone figsGuardW 0 1 =
      check_overlap ⟨0, 0, 10, 10⟩ ⟨1, 1, 5, 5⟩ OVERLAP_DISTANCE OVERLAP_DISTANCE_BBOX :=
  (has_overlap_guards envNone figsGuardW 0 1 figGuardA figGuardB (by decide) rfl rfl
    ⟨0, 0, 10, 10⟩ ⟨1, 1, 5, 5⟩ rfl rfl).2.2.2.2.2 rfl rfl rfl rfl (by intro h; cases h)

theorem pairScan_some {n : ℕ} {p : ℕ → ℕ → Bool} {i j : ℕ}
    (h : pairScan n p = some (i, j)) : i < j ∧ j < n ∧ p i j = true := by
  obtain ⟨a, -, hfa⟩ := List.exists_of_findSome?_eq_some h
  obtain ⟨j', hfind, heq⟩ := Option.map_eq_some'.1 hfa
  obtain ⟨h1, h2⟩ := Prod.ext_iff.1 heq
  dsimp at h1 h2
  subst h1
  subst h2
  have hp := List.find?_some hfind
  have hmem := List.mem_of_find?_eq_some hfind
  simp only [List.mem_filter, List.mem_range, decide_eq_true_eq] at hmem
  exact ⟨hmem.2, hmem.1, hp⟩

theorem pairScan_none {n : ℕ} {p : ℕ → ℕ → Bool} (h : pairScan n p = none) :
    ∀ i j, i < j → j < n → p i j = false := by
  intro i j hij hjn
  rw [pairScan, List.findSome?_eq_none_iff] at h
  have hi := h i (List.mem_range.2 (lt_trans hij hjn))
  rw [Option.map_eq_none', List.find?_eq_none] at hi
  have hjmem : j ∈ List.filter (fun x => decide (i < x)) (List.range n) := by
    simp only [List.mem_filter, List.mem_range, decide_eq_true_eq]
    exact ⟨hjn, hij⟩
  simpa using hi j hjmem

theorem getD_mergeAt (l : List (Finset ℕ)) (i j t : ℕ) (hij : i < j) (hj : j < l.length) :
    (mergeAt l i j).getD t ∅ =
      if t < j then (if t = i then l.getD i ∅ ∪ l.getD j ∅ else l.getD t ∅)
      else l.getD (t + 1) ∅ := by
  simp only [mergeAt, List.getD_eq_getElem?_getD]
  by_cases h1 : t < j
  · rw [List.getElem?_eraseIdx_of_lt _ _ _ h1]
    by_cases h2 : t = i
    · subst h2
      rw [List.getElem?_set_self (by simpa using lt_of_lt_of_le hij (le_of_lt hj))]
      simp [h1, List.getD_eq_getElem?_getD]
    · rw [List.getElem?_set_ne (fun hc => h2 hc.symm)]
      simp [h1, h2]
  · rw [List.getElem?_eraseIdx_of_ge _ _ _ (by omega)]
    rw [List.getElem?_set_ne (by omega)]
    simp [h1]

theorem covers_mergeAt {l : List (Finset ℕ)} {i j : ℕ} (hij : i < j) (hj : j < l.length)
    {k : ℕ} (h : covers l k) : covers (mergeAt l i j) k := by
  obtain ⟨t, ht⟩ := h
  by_cases h1 : t = j
  · subst h1
    refine ⟨i, ?_⟩
    rw [getD_mergeAt l i t i hij hj, if_pos hij, if_pos rfl]
    exact Finset.mem_union_right _ ht
  · by_cases h2 : t < j
    · by_cases h3 : t = i
      · subst h3
        refine ⟨t, ?_⟩
        rw [getD_mergeAt l t j t hij hj, if_pos h2, if_pos rfl]
        exact Finset.mem_union_left _ ht
      · exact ⟨t, by rw [getD_mergeAt l i j t hij hj, if_pos h2, if_neg h3]; exact ht⟩
    · refine ⟨t - 1, ?_⟩
      rw [getD_mergeAt l i j (t - 1) hij hj, if_neg (by omega)]
      have he : t - 1 + 1 = t := by omega
      rw [he]
      exact ht

theorem mem_getD_lt {l : List (Finset ℕ)} {n t k : ℕ} (h : boundedBy l n)
    (hk : k ∈ l.getD t ∅) : k < n := by
  rw [List.getD_eq_getElem?_getD] at hk
  cases h' : l[t]? with
  | none => rw [h'] at hk; simp at hk
  | some s =>
    rw [h'] at hk
    exact h s (List.getElem?_mem h') k hk

theorem boundedBy_mergeAt {l : List (Finset ℕ)} {n i j : ℕ} (h : boundedBy l n) :
    boundedBy (mergeAt l i j) n := by
  intro s hs k hk
  have hs1 : s ∈ l.set i (l.getD i ∅ ∪ l.getD j ∅) := List.eraseIdx_subset _ _ hs
  rcases List.mem_or_eq_of_mem_set hs1 with hs2 | hs2
  · exact h s hs2 k hk
  · subst hs2
    rcases Finset.mem_union.1 hk with hk' | hk'
    · exact mem_getD_lt h hk'
    · exact mem_getD_lt h hk'

theorem covers_uii (l : List (Finset ℕ)) :
    ∀ k, covers l k → covers (union_intersections_images l) k := by
  induction l using union_intersections_images.induct with
  | case1 m hnone =>
    intro k h
    rw [union_intersections_images.eq_def, hnone]
    exact h
  | case2 m i j hsome ih =>
    intro k h
    rw [union_intersections_images.eq_def, hsome]
    obtain ⟨hij, hj, -⟩ := pairScan_some hsome
    exact ih k (covers_mergeAt hij hj h)

theorem boundedBy_uii (l : List (Finset ℕ)) :
    ∀ n, boundedBy l n → boundedBy (union_intersections_images l) n := by
  induction l using union_intersections_images.induct with
  | case1 m hnone =>
    intro n h
    rw [union_intersections_images.eq_def, hnone]
    exact h
  | case2 m i j hsome ih =>
    intro n h
    rw [union_intersections_images.eq_def, hsome]
    exact ih n (boundedBy_mergeAt h)

theorem uii_disjoint (l : List (Finset ℕ)) :
    ∀ i j, i < j → j < (union_intersections_images l).length →
      (union_intersections_images l).getD i ∅ ∩ (union_intersections_images l).getD j ∅ = ∅ := by
  induction l using union_intersections_images.induct with
  | case1 m hnone =>
    rw [union_intersections_images.eq_def, hnone]
    intro i j hij hj
    have hp := pairScan_none hnone i j hij hj
    simp only [intersectNE] at hp
    exact Finset.not_nonempty_iff_eq_empty.1 (of_decide_eq_false hp)
  | case2 m i j hsome ih =>
    rw [union_intersections_images.eq_def, hsome]
    exact ih

theorem regionMergeLoop_post (env : PdfEnv) (figures : List Fig) (figs : List Fig)
    (sets : List (Finset ℕ)) :
    sets.length = figs.length →
      (∀ k, covers sets k → covers (regionMergeLoop env figures figs sets).2 k) ∧
      ∀ n, boundedBy sets n → boundedBy (regionMergeLoop env figures figs sets).2 n := by
  induction figs, sets using regionMergeLoop.induct env figures with
  | case1 fs ss hnone =>
    intro hlen
    rw [regionMergeLoop.eq_def, hnone]
    exact ⟨fun k h => h, fun n h => h⟩
  | case2 fs ss i j hsome ih =>
    intro hlen
    rw [regionMergeLoop.eq_def, hsome]
    obtain ⟨hij, hj, -⟩ := pairScan_some hsome
    have hj' : j < ss.length := by omega
    have hlen' : (mergeAt ss i j).length =
        ((fs.set i (mergeRegionFig (fs.getD i defaultFig) (fs.getD j defaultFig))).eraseIdx
          j).length := by
      simp only [mergeAt]
      rw [List.length_eraseIdx_of_lt (by simpa using hj'),
        List.length_eraseIdx_of_lt (by simpa using hj)]
      simp only [List.length_set]
      omega
    obtain ⟨ihc, ihb⟩ := ih hlen'
    exact ⟨fun k h => ihc k (covers_mergeAt hij hj' h),
    fun n h => ihb n (boundedBy_mergeAt h)⟩

theorem urfo_covers (env : PdfEnv) (figures : List Fig) (l : List (Finset ℕ)) :
    ∀ k, covers l k → covers (union_region_fig_overlap env figures l) k := by
  intro k h
  obtain ⟨hc, -⟩ := regionMergeLoop_post env figures (l.map (buildUnionRegion figures)) l
    (by simp)
  exact covers_uii _ k (hc k h)

theorem urfo_boundedBy (env : PdfEnv) (figures : List Fig) (l : List (Finset ℕ)) :
    ∀ n, boundedBy l n → boundedBy (union_region_fig_overlap env figures l) n := by
  intro n h
  obtain ⟨-, hb⟩ := regionMergeLoop_post env figures (l.map (buildUnionRegion figures)) l
    (by simp)
  exact boundedBy_uii _ n (hb n h)

theorem urfo_disjoint (env : PdfEnv) (figures : List Fig) (l : List (Finset ℕ)) :
    ∀ i j, i < j → j < (union_region_fig_overlap env figures l).length →
      (union_region_fig_overlap env figures l).getD i ∅ ∩
        (union_region_fig_overlap env figures l).getD j ∅ = ∅ := by
  exact uii_disjoint _

theorem build_loop_post (env : PdfEnv) (figures : List Fig) (l : List (Finset ℕ)) :
    (∀ k, covers l k → covers (build_overlap_set_loop env figures l) k) ∧
    (∀ n, boundedBy l n → boundedBy (build_overlap_set_loop env figures l) n) ∧
    (∀ i j, i < j → j < (build_overlap_set_loop env figures l).length →
      (build_overlap_set_loop env figures l).getD i ∅ ∩
        (build_overlap_set_loop env figures l).getD j ∅ = ∅) := by
  induction l using build_overlap_set_loop.induct env figures with
  | case1 m hstable =>
    rw [build_overlap_set_loop.eq_def, dif_pos hstable]
    exact ⟨urfo_covers env figures m, urfo_boundedBy env figures m, urfo_disjoint env figures m⟩
  | case2 m hshrink ih =>
    rw [build_overlap_set_loop.eq_def, dif_neg hshrink]
    obtain ⟨ihc, ihb, ihd⟩ := ih
    exact ⟨fun k h => ihc k (urfo_covers env figures m k h),
      fun n h => ihb n (urfo_boundedBy env figures m n h), ihd⟩

/-- Helper: the equal-index short-circuit of `has_overlap` (shared by
the clustering development). -/
theorem has_overlap_self (env : PdfEnv) (figures : List Fig) (i : ℕ) :
    has_overlap env figures i i = true := by
  simp [has_overlap]

theorem initialOverlapSet_getD (env : PdfEnv) (figures : List Fig) {k : ℕ}
    (hk : k < figures.length) :
    (initialOverlapSet env figures).getD k ∅ =
      (Finset.range figures.length).filter
        (fun j => k ≤ j ∧ has_overlap env figures k j = true) := by
  simp only [initialOverlapSet, List.getD_eq_getElem?_getD, List.getElem?_map,
    List.getElem?_range hk, Option.map_some', Option.getD_some]

theorem covers_initial (env : PdfEnv) (figures : List Fig) {k : ℕ}
    (hk : k < figures.length) : covers (initialOverlapSet env figures) k := by
  refine ⟨k, ?_⟩
  rw [initialOverlapSet_getD env figures hk]
  simp only [Finset.mem_filter, Finset.mem_range]
  exact ⟨hk, le_refl k, has_overlap_self env figures k⟩

theorem boundedBy_initial (env : PdfEnv) (figures : List Fig) :
    boundedBy (initialOverlapSet env figures) figures.length := by
  intro s hs k hk
  simp only [initialOverlapSet, List.mem_map, List.mem_range] at hs
  obtain ⟨i, -, rfl⟩ := hs
  have := (Finset.mem_filter.1 hk).1
  exact Finset.mem_range.1 this

/-- C1: for every figure list (and any document environment),
`build_overlap_set` terminates — it is a total function of this
development, with all loops proved decreasing on the number of
clusters — and the returned clusters are pairwise disjoint, consist of
valid input indices, and together cover every input index. -/
theorem build_overlap_set_partition (env : PdfEnv) (figures : List Fig) :
    ((build_overlap_set env figures).Pairwise fun s t => s ∩ t = ∅) ∧
    (∀ k, k < figures.length → ∃ s ∈ build_overlap_set env figures, k ∈ s) ∧
    (∀ s ∈ build_overlap_set env figures, ∀ k ∈ s, k < figures.length) := by
  obtain ⟨hc, hb, hd⟩ :=
    build_loop_post env figures (union_intersections_images (initialOverlapSet env figures))
  refine ⟨?_, ?_, ?_⟩
  · rw [List.pairwise_iff_getElem]
    intro i j hi hj hij
    have := hd i j hij (by simpa using hj)
    rwa [List.getD_eq_getElem?_getD, List.getD_eq_getElem?_getD,
      List.getElem?_eq_getElem (by simpa using hi), List.getElem?_eq_getElem (by simpa using hj),
      Option.getD_some, Option.getD_some] at this
  · intro k hk
    have hcov : covers (build_overlap_set env figures) k :=
      hc k (covers_uii _ k (covers_initial env figures hk))
    obtain ⟨t, ht⟩ := hcov
    rw [List.getD_eq_getElem?_getD] at ht
    cases h' : (build_overlap_set env figures)[t]? with
    | none => rw [h'] at ht; simp at ht
    | some s =>
      rw [h'] at ht
      exact ⟨s, List.getElem?_mem h', ht⟩
  · intro s hs k hk
    have hbb : boundedBy (build_overlap_set env figures) figures.length :=
      hb _ (boundedBy_uii _ _ (boundedBy_initial env figures))
    exact hbb s hs k hk

theorem build_overlap_set_partition_witness :
    ∃ s ∈ build_overlap_set envNone figsGuardW, 0 ∈ s :=
  (build_overlap_set_partition envNone figsGuardW).2.1 0 (by decide)

/-- C2 counterexample: records 20×20 at `[0,0,10,10]` and 40×40 at
`[1,1,11,11]` get canvas offsets `x0_i = x0_j = 0` and
`y0_i = y0_j = 0` (the second clamped up to `0`), so their placements
overlap by `min 20 40 = 20 > 10` pixels on both axes; yet no sanity
guard fires (they all require a strict offset inequality), nothing is
flushed, and a merged 33×33 canvas is produced and returned as a
synthetic record. -/
theorem merge_images_equal_offset_cex :
    merge_images loadDims 1 objMergeI objMergeJ =
      some ⟨⟨33, 33, "RGB", []⟩, mergedMergeObj, [], 1⟩ ∧
    mergeOffsets ⟨0, 0, 10, 10⟩ ⟨1, 1, 11, 11⟩ 20 40 20 40
        (mergeRealW ⟨0, 0, 10, 10⟩ ⟨1, 1, 11, 11⟩ 20 40)
        (mergeRealH ⟨0, 0, 10, 10⟩ ⟨1, 1, 11, 11⟩ 20 40) =
      ((0, 30, 0, 33), (0, 30, 0, 33)) ∧
    min ((0 : ℤ) + 20) (0 + 40) - max 0 0 = 20 ∧
    ((20 : ℤ) > 10) ∧
    (loadDims objMergeI).width = 20 ∧ (loadDims objMergeJ).width = 40 ∧
    mergedMergeObj ≠ objMergeI ∧ mergedMergeObj ≠ objMergeJ ∧
    mergedMergeObj.image = some ⟨33, 33, "RGB", []⟩ := by
  with_unfolding_all decide

/-- C2 (amended): `merge_images` refuses to merge exactly when one of
its four guards fires, each requiring a *strict* offset inequality on
an axis together with that record's image extending more than 10
pixels past the other record's offset. The first guard that fires
decides the outcome: the surviving record and its loaded image are
returned unchanged, and the other image is flushed to its own file —
but only when that image is strictly larger than 10×10 (the counter
advances only in that case). With equal offsets on both axes no guard
fires even if the placements overlap by more than 10 pixels, and a
merged canvas is produced. -/
theorem merge_images_guard_spec (load : Fig → PILImg) (counter : ℕ) (obj_i obj_j : Fig)
    (bi bj : Rect) (hbi : obj_i.bbox = some bi) (hbj : obj_j.bbox = some bj)
    (x0_i x1_i x0_j x1_j y0_i y1_i y0_j y1_j : ℤ)
    (hoff : mergeOffsets bi bj (obj_i.width.getD 0) (obj_j.width.getD 0)
        (obj_i.height.getD 0) (obj_j.height.getD 0)
        (mergeRealW bi bj (obj_i.width.getD 0 : ℚ) (obj_j.width.getD 0 : ℚ))
        (mergeRealH bi bj (obj_i.height.getD 0 : ℚ) (obj_j.height.getD 0 : ℚ)) =
      ((x0_i, x1_i, x0_j, x1_j), (y0_i, y1_i, y0_j, y1_j))) :
    (x0_i < x0_j ∧ x0_i + ((load obj_i).width : ℤ) - x0_j > 10 →
      merge_images load counter obj_i obj_j = some ⟨load obj_i, obj_i,
        if ((load obj_j).width : ℤ) > 10 ∧ ((load obj_j).height : ℤ) > 10 then
          [convertForSave (load obj_j)] else [],
        if ((load obj_j).width : ℤ) > 10 ∧ ((load obj_j).height : ℤ) > 10 then
          counter + 1 else counter⟩) ∧
    (¬(x0_i < x0_j ∧ x0_i + ((load obj_i).width : ℤ) - x0_j > 10) →
      x0_j < x0_i ∧ x0_j + ((load obj_j).width : ℤ) - x0_i > 10 →
      merge_images load counter obj_i obj_j = some ⟨load obj_j, obj_j,
        if ((load obj_i).width : ℤ) > 10 ∧ ((load obj_i).height : ℤ) > 10 then
          [convertForSave (load obj_i)] else [],
        if ((load obj_i).width : ℤ) > 10 ∧ ((load obj_i).height : ℤ) > 10 then
          counter + 1 else counter⟩) ∧
    (¬(x0_i < x0_j ∧ x0_i + ((load obj_i).width : ℤ) - x0_j > 10) →
      ¬(x0_j < x0_i ∧ x0_j + ((load obj_j).width : ℤ) - x0_i > 10) →
      y0_i < y0_j ∧ y0_i + ((load obj_i).height : ℤ) - y0_j > 10 →
      merge_images load counter obj_i obj_j = some ⟨load obj_i, obj_i,
        if ((load obj_j).width : ℤ) > 10 ∧ ((load obj_j).height : ℤ) > 10 then
          [convertForSave (load obj_j)] else [],
        if ((load obj_j).width : ℤ) > 10 ∧ ((load obj_j).height : ℤ) > 10 then
          counter + 1 else counter⟩) ∧
    (¬(x0_i < x0_j ∧ x0_i + ((load obj_i).width : ℤ) - x0_j > 10) →
      ¬(x0_j < x0_i ∧ x0_j + ((load obj_j).width : ℤ) - x0_i > 10) →
      ¬(y0_i < y0_j ∧ y0_i + ((load obj_i).height : ℤ) - y0_j > 10) →
      y0_j < y0_i ∧ y0_j + ((load obj_j).height : ℤ) - y0_i > 10 →
      merge_images load counter obj_i obj_j = some ⟨load obj_j, obj_j,
        if ((load obj_i).width : ℤ) > 10 ∧ ((load obj_i).height : ℤ) > 10 then
          [load obj_i] else [],
        if ((load obj_i).width : ℤ) > 10 ∧ ((load obj_i).height : ℤ) > 10 then
          counter + 1 else counter⟩) := by
  simp only [merge_images, hbi, hbj, hoff]
  refine ⟨?_, ?_, ?_, ?_⟩
  · intro hg1
    rw [if_pos hg1]
    by_cases hd : 10 < (load obj_j).width ∧ 10 < (load obj_j).height <;> simp [hd]
  · intro hn1 hg2
    rw [if_neg hn1, if_pos hg2]
    by_cases hd : 10 < (load obj_i).width ∧ 10 < (load obj_i).height <;> simp [hd]
  · intro hn1 hn2 hg3
    rw [if_neg hn1, if_neg hn2, if_pos hg3]
    by_cases hd : 10 < (load obj_j).width ∧ 10 < (load obj_j).height <;> simp [hd]
  · intro hn1 hn2 hn3 hg4
    rw [if_neg hn1, if_neg hn2, if_neg hn3, if_pos hg4]
    by_cases hd : 10 < (load obj_i).width ∧ 10 < (load obj_i).height <;> simp [hd]

theorem merge_images_guard_spec_witness :
    merge_images load100 1 objGuardWI objGuardWJ =
      some ⟨load100 objGuardWI, objGuardWI, [convertForSave (load100 objGuardWJ)], 2⟩ := by
  have h := (merge_images_guard_spec load100 1 objGuardWI objGuardWJ
    ⟨0, 0, 10, 10⟩ ⟨9, 0, 19, 10⟩ rfl rfl
    0 40 36 76 0 20 0 20 (by with_unfolding_all decide)).1
    (by with_unfolding_all decide)
  rw [h]
  with_unfolding_all decide

set_option maxRecDepth 10000 in
/-- C5: refuted by the corruption-escape flush. Every other write path
(`write_img`, `write_alpha_imgs`, the merge-guard flushes, the final
composite write) checks the 10-pixel minimum, but the escape branch of
the assembly loop saves the head record with no size check at all. On
a cluster of ten 5×5 records spaced too far apart to ever merge, the
assembler widens the distance eight times (silently dropping a head
each time) and then, at distance 5, flushes the then-current head to
disk: one 5×5 PNG is written (the image counter advances to 2), below
the 10×10 minimum the claim asserts for every produced file. -/
theorem assembly_escape_writes_small_image :
    assembly_image load5 100 figsFar 1 = some ([⟨5, 5, "RGB", []⟩], 2, false) ∧
    5 < MIN_IMAGE_WIDTH ∧ 5 < MIN_IMAGE_HEIGHT := by
  with_unfolding_all decide

/-- C8: for every pixmap and writer environment, `write_img` returns
false, writes nothing, and raises no exception when either pixel
dimension is below 10 or the colorspace is empty: both pre-checks
precede the `try` block and every write. -/
theorem write_img_precheck (env : WriteEnv) (pix : Pixmap) (alt : Option String)
    (h : pix.width < MIN_IMAGE_WIDTH ∨ pix.height < MIN_IMAGE_HEIGHT ∨ pix.colorspace = none) :
    write_img env pix alt = Except.ok (false, []) := by
  rcases h with h | h | h
  · simp [write_img, h]
  · by_cases hw : pix.width < MIN_IMAGE_WIDTH <;> simp [write_img, hw, h]
  · by_cases hw : pix.width < MIN_IMAGE_WIDTH <;>
      by_cases hh : pix.height < MIN_IMAGE_HEIGHT <;> simp [write_img, hw, hh, h]

theorem write_img_precheck_witness :
    write_img envWriteW ⟨5, 5, some COLORSPACE_RGB, 0⟩ none = Except.ok (false, []) :=
  write_img_precheck envWriteW ⟨5, 5, some COLORSPACE_RGB, 0⟩ none (Or.inl (by decide))

/-- C9 counterexample: with an invalid mode *and* an out_name that is
not a directory, `extract_all` raises `ValueError`, not `IOError` (the
mode check runs first), so it does not raise `IOError` for *every*
non-directory out_name. -/
theorem extract_all_both_invalid_cex :
    extract_all isdirNone "missing" "bogus" = Except.error PyError.valueError ∧
    (Except.error PyError.valueError : Except PyError String) ≠ Except.error PyError.ioError ∧
    "bogus" ∉ operations_mode ∧
    isdirNone "missing" = false := by
  with_unfolding_all decide

/-- C9 (amended): `extract_all` raises `ValueError` for every mode
outside `{safe, normal, unsafe}`; for a *valid* mode it raises
`IOError` for every out_name that is not an existing directory. Both
checks run before any document is opened or file written (the error
results carry no dispatch). -/
theorem extract_all_validation (isdir : String → Bool) (out_name mode : String) :
    (mode ∉ operations_mode → extract_all isdir out_name mode = Except.error PyError.valueError) ∧
    (mode ∈ operations_mode → isdir out_name = false →
      extract_all isdir out_name mode = Except.error PyError.ioError) := by
  constructor
  · intro h
    simp [extract_all, h]
  · intro h1 h2
    simp [extract_all, h1, h2]

theorem extract_all_validation_witness :
    extract_all isdirNone "missing" "normal" = Except.error PyError.ioError :=
  (extract_all_validation isdirNone "missing" "normal").2 (by decide) (by decide)

/-- C6 counterexample: two equal-size grayscale near-duplicates with
filename counters 1 and 2; the sort key is the *negated* counter, so
the descending sort orders them by ascending counter and `last[1]` —
the deleted file — is the one with the *larger* counter (2), refuting
the claim that the smaller counter is deleted. -/
theorem is_equal_imgs_gray_cex :
    is_equal_imgs openGrayW imgPathC1 imgPathC2 = (true, some imgPathC2) ∧
    imgSortKey imgPathC1 = -1 ∧ imgSortKey imgPathC2 = -2 := by
  with_unfolding_all decide

/-- C6 (amended): for near-duplicate files of equal size whose modes
agree and are both grayscale, the file with the *larger* filename
counter — equivalently the strictly smaller (negated-counter) sort
key — is the one deleted. -/
theorem is_equal_imgs_gray_spec (openImg : String → PILImg) (path_i path_j : String)
    (hw : (openImg path_i).width = (openImg path_j).width)
    (hh : (openImg path_i).height = (openImg path_j).height)
    (hmi : (openImg path_i).mode = "L") (hmj : (openImg path_j).mode = "L")
    (hk : imgSortKey path_j < imgSortKey path_i) :
    is_equal_imgs openImg path_i path_j = (true, some path_j) := by
  have h1 : ((openImg path_i).width, (openImg path_i).height) =
      ((openImg path_j).width, (openImg path_j).height) := by
    rw [hw, hh]
  have hmm : (openImg path_i).mode = (openImg path_j).mode := by rw [hmi, hmj]
  simp only [is_equal_imgs, h1, hmm, hmj, sortedPairDesc]
  simp [le_of_lt hk]

set_option maxRecDepth 10000 in
theorem is_equal_imgs_gray_spec_witness :
    is_equal_imgs openGrayW imgPathW3 imgPathW7 = (true, some imgPathW7) :=
  is_equal_imgs_gray_spec openGrayW imgPathW3 imgPathW7 rfl rfl rfl rfl
    (by with_unfolding_all decide)

set_option maxRecDepth 10000 in
/-- C7 counterexample: when Normal mode times out (the alarm fired and
raised `TimeoutError`), the orchestrator deletes the partial output
directory and retries Safe mode, but the `TimeoutError` handler never
re-arms the alarm: the retry runs with 0 seconds pending, and no
fresh full-duration alarm appears in the trace — refuting "under a
fresh alarm of the full timeout duration". -/
theorem process_document_timeout_cex :
    process_document RunOutcome.timeoutErr RunOutcome.ok true true =
      ([OrcEvent.setAlarm 600, OrcEvent.removeTree, OrcEvent.runSafe 0,
        OrcEvent.clearAlarm, OrcEvent.runPost], false) ∧
    OrcEvent.runSafe EXTRACTION_TIMEOUT ∉
      (process_document RunOutcome.timeoutErr RunOutcome.ok true true).1 ∧
    OrcEvent.runSafe 0 ∈ (process_document RunOutcome.timeoutErr RunOutcome.ok true true).1 := by
  with_unfolding_all decide

set_option maxRecDepth 10000 in
/-- C7 (amended): on `TimeoutError` the orchestrator deletes the
partial output directory (when it exists) and retries Safe mode with
*no* alarm pending (none is re-armed; the old one has fired); on any
other exception it clears and re-arms a fresh alarm of the full 600 s
duration before the same delete-and-retry; in every case the alarm is
finally cleared and the post-processor runs. -/
theorem process_document_retry_spec (safeRes : RunOutcome) (dirBefore dirAfter : Bool) :
    process_document RunOutcome.timeoutErr safeRes dirBefore dirAfter =
      ([OrcEvent.setAlarm EXTRACTION_TIMEOUT] ++
        (if dirBefore then [OrcEvent.removeTree] else []) ++ [OrcEvent.runSafe 0] ++
        (match safeRes with
         | RunOutcome.ok => []
         | RunOutcome.kbInterrupt => []
         | _ => if dirAfter then [OrcEvent.removeTree] else []) ++
        [OrcEvent.clearAlarm, OrcEvent.runPost],
        decide (safeRes = RunOutcome.kbInterrupt)) ∧
    process_document RunOutcome.otherErr safeRes dirBefore dirAfter =
      ([OrcEvent.setAlarm EXTRACTION_TIMEOUT, OrcEvent.clearAlarm,
        OrcEvent.setAlarm EXTRACTION_TIMEOUT] ++
        (if dirBefore then [OrcEvent.removeTree] else []) ++
        [OrcEvent.runSafe EXTRACTION_TIMEOUT] ++
        (match safeRes with
         | RunOutcome.ok => []
         | RunOutcome.kbInterrupt => []
         | _ => if dirAfter then [OrcEvent.removeTree] else []) ++
        [OrcEvent.clearAlarm, OrcEvent.runPost],
        decide (safeRes = RunOutcome.kbInterrupt)) := by
  cases safeRes <;> cases dirBefore <;> cases dirAfter <;>
    with_unfolding_all decide
